import Mathlib

/-!
Verification development for the entra-node user-export pipeline.

The definitions in this file are a shallow embedding of the TypeScript
sources: pure functions become Lean functions, asynchronous calls to
collaborators become explicit parameters carrying the outcome of the call
(`Except String _` for a call that can reject), and the shared mutable
`ProcessingStats` record is threaded through explicitly.  JavaScript
truthiness tests on optional strings are modelled by an explicit test
against `none` and against the empty string.
-/

namespace EntraNode

/-! ## String helpers mirroring the JavaScript primitives used by the code -/

/-- Model of `Array/String.prototype.startsWith` on character lists. -/
def startsWithL : List Char → List Char → Bool
  | [], _ => true
  | _ :: _, [] => false
  | p :: ps, x :: xs => p == x && startsWithL ps xs

/-- Model of `String.prototype.includes`, searching at every position. -/
def containsL (pat : List Char) : List Char → Bool
  | [] => startsWithL pat []
  | x :: xs => startsWithL pat (x :: xs) || containsL pat xs

/-- The JavaScript `haystack.includes(needle)` test. -/
def strIncludes (s pat : String) : Bool :=
  containsL pat.data s.data

/-- Model of `String.prototype.split` with a single-character separator:
splits at every occurrence of the separator. -/
def splitChar (c : Char) : List Char → List (List Char)
  | [] => [[]]
  | x :: xs =>
    let r := splitChar c xs
    if x == c then [] :: r
    else
      match r with
      | [] => [[x]]
      | y :: ys => (x :: y) :: ys

/-- The JavaScript `s.split('@')`. -/
def splitAtSign (s : String) : List String :=
  (splitChar '@' s.data).map String.mk

/-! ## RetryPolicy (`src/utils/retry.ts`) -/

/-- `RetryOptions` from `retry.ts`. -/
structure RetryOptions where
  maxRetries : Nat
  retryDelayMs : Nat
deriving Repr, DecidableEq

/-- `ErrorWithStatus` from `retry.ts`: an error value possibly carrying an
HTTP status code. -/
structure ErrorWithStatus where
  statusCode : Option Nat
  message : String
deriving Repr, DecidableEq

/-- `isThrottlingError` from `retry.ts`. -/
def isThrottlingError (e : ErrorWithStatus) : Bool :=
  e.statusCode == some 429 ||
    strIncludes e.message "throttled" ||
    strIncludes e.message "Too Many Requests"

/-- Observable trace of one `retryWithBackoff` run: the final outcome, how
many times the wrapped operation was invoked, and the list of back-off
delays (in ms) that were awaited between attempts. -/
structure RetryTrace (α : Type) where
  result : Except ErrorWithStatus α
  attempts : Nat
  delays : List Nat
deriving Repr

/-- The `for (let i = 0; i < maxRetries; i++)` loop body of
`retryWithBackoff`.  The operation is modelled as a function from the
attempt index to that attempt's outcome.  `rem` is the number of loop
iterations still available (`maxRetries - i`); when it reaches zero the
loop has exited and the code throws its "Retry logic failed unexpectedly"
error. -/
def retryAux {α : Type} (op : Nat → Except ErrorWithStatus α)
    (maxRetries delayMs : Nat) : Nat → Nat → RetryTrace α
  | _, 0 =>
    { result := .error { statusCode := none, message := "Retry logic failed unexpectedly" },
      attempts := 0, delays := [] }
  | i, rem + 1 =>
    match op i with
    | .ok v => { result := .ok v, attempts := 1, delays := [] }
    | .error e =>
      if isThrottlingError e && decide (i < maxRetries - 1) then
        let d := delayMs * 2 ^ i
        let t := retryAux op maxRetries delayMs (i + 1) rem
        { result := t.result, attempts := t.attempts + 1, delays := d :: t.delays }
      else
        { result := .error e, attempts := 1, delays := [] }

/-- `retryWithBackoff` from `retry.ts`. -/
def retryWithBackoff {α : Type} (op : Nat → Except ErrorWithStatus α)
    (opts : RetryOptions) : RetryTrace α :=
  retryAux op opts.maxRetries opts.retryDelayMs 0 opts.maxRetries

/-! ## Data model (`src/types/index.ts`) -/

/-- `ServicePlan` from `types/index.ts`. -/
structure ServicePlan where
  servicePlanId : String
  servicePlanName : String
  provisioningStatus : String
deriving Repr, DecidableEq

/-- `LicenseSku` from `types/index.ts`. -/
structure LicenseSku where
  skuId : String
  skuPartNumber : String
  displayName : String
  servicePlans : List ServicePlan
deriving Repr, DecidableEq

/-- `AssignedLicense` from `types/index.ts`. -/
structure AssignedLicense where
  skuId : String
  disabledPlans : Option (List String)
deriving Repr, DecidableEq

/-- `SignInActivity` from `types/index.ts`. -/
structure SignInActivity where
  lastSuccessfulSignInDateTime : Option String
deriving Repr, DecidableEq

/-- `Manager` from `types/index.ts`. -/
structure Manager where
  displayName : Option String
  userPrincipalName : Option String
deriving Repr, DecidableEq

/-- `GraphUser` from `types/index.ts`. -/
structure GraphUser where
  id : String
  givenName : Option String
  surname : Option String
  displayName : Option String
  userPrincipalName : Option String
  mail : Option String
  jobTitle : Option String
  department : Option String
  companyName : Option String
  officeLocation : Option String
  employeeId : Option String
  mobilePhone : Option String
  businessPhones : Option (List String)
  streetAddress : Option String
  city : Option String
  postalCode : Option String
  state : Option String
  country : Option String
  userType : Option String
  onPremisesSyncEnabled : Option Bool
  accountEnabled : Option Bool
  createdDateTime : Option String
  assignedLicenses : Option (List AssignedLicense)
  signInActivity : Option SignInActivity
  manager : Option Manager
deriving Repr, DecidableEq

/-- `MfaInfo` from `types/index.ts` (the flags of `MfaMethodFlags` inlined,
as TypeScript does via interface extension). -/
structure MfaInfo where
  defaultMethod : String
  mfaStatus : String
  emailAuth : Bool
  fido2Auth : Bool
  msAuthenticatorApp : Bool
  msAuthenticatorLite : Bool
  phoneAuth : Bool
  softwareOath : Bool
  temporaryAccessPass : Bool
  windowsHello : Bool
deriving Repr, DecidableEq

/-- `SecurityGroupInfo` from `types/index.ts`. -/
structure SecurityGroupInfo where
  groups : List String
  count : Nat
deriving Repr, DecidableEq

/-- `LicenseDetails` from `types/index.ts`. -/
structure LicenseDetails where
  licenseSkus : List String
  licenseCount : Nat
  servicePlans : List String
deriving Repr, DecidableEq

/-- `ProcessingStats` from `types/index.ts`.  The wall-clock `startTime`
field is outside this model (no time in the embedding); the three counters
are kept. -/
structure ProcessingStats where
  totalUsers : Nat
  processed : Nat
  errors : Nat
deriving Repr, DecidableEq

/-- `BatchRequestItem` from `types/index.ts`. -/
structure BatchRequestItem where
  id : String
  method : String
  url : String
deriving Repr, DecidableEq

/-- `BatchRequest` from `types/index.ts`. -/
structure BatchRequest where
  requests : List BatchRequestItem
deriving Repr, DecidableEq

/-- One entry of the `value` array of the authentication-methods half of the
MFA batch response: the `@odata.type` discriminator plus the `deviceTag`
marker inspected for the authenticator method (the payload is loosely typed
`any` in the source; the two properties the code reads are modelled). -/
structure AuthMethod where
  odataType : String
  deviceTag : Option String
deriving Repr, DecidableEq

/-- The `body` of a batch response item, narrowed to the two properties the
MFA service reads: `body.value` (the method list) and
`body.userPreferredMethodForSecondaryAuthentication` (the sign-in
preference). -/
structure BatchBody where
  value : List AuthMethod
  userPreferredMethodForSecondaryAuthentication : Option String
deriving Repr, DecidableEq

/-- `BatchResponseItem` from `types/index.ts`. -/
structure BatchResponseItem where
  id : String
  status : Nat
  body : BatchBody
deriving Repr, DecidableEq

/-- `BatchResponse` from `types/index.ts`. -/
structure BatchResponse where
  responses : List BatchResponseItem
deriving Repr, DecidableEq

/-- One directory object returned by the `memberOf` call, narrowed to the
three properties `groupService.ts` reads. -/
structure DirectoryMember where
  odataType : String
  securityEnabled : Bool
  displayName : String
deriving Repr, DecidableEq

/-- The `memberOf` response shape read by `groupService.ts`. -/
structure MemberOfResponse where
  value : List DirectoryMember
deriving Repr, DecidableEq

/-! ## Sorting and deduplication helpers (JS `Array.prototype.sort` on
strings and `new Set(...)` insertion-order semantics) -/

/-- Strict lexicographic comparison of character lists by code point, the
order under which JavaScript's default `Array.prototype.sort` sorts an
array of strings. -/
def charListLt : List Char → List Char → Bool
  | [], [] => false
  | [], _ :: _ => true
  | _ :: _, [] => false
  | a :: as, b :: bs =>
    if a.toNat < b.toNat then true
    else if b.toNat < a.toNat then false
    else charListLt as bs

/-- The non-strict string order: `a` sorts no later than `b`. -/
def strLeB (a b : String) : Bool :=
  !(charListLt b.data a.data)

/-- Insert a string into an already sorted list. -/
def insertSorted (a : String) : List String → List String
  | [] => [a]
  | b :: l => if strLeB a b then a :: b :: l else b :: insertSorted a l

/-- JavaScript `Array.prototype.sort()` on an array of strings: sort
ascending by the string order (insertion sort as the model). -/
def sortStrings : List String → List String
  | [] => []
  | a :: l => insertSorted a (sortStrings l)

/-- Helper of `dedupFirst` carrying the set of already-seen strings. -/
def dedupFirstAux (seen : List String) : List String → List String
  | [] => []
  | x :: xs =>
    if seen.contains x then dedupFirstAux seen xs
    else x :: dedupFirstAux (seen ++ [x]) xs

/-- JavaScript `[...new Set(l)]`: keep the first occurrence of each
element, in insertion order. -/
def dedupFirst (l : List String) : List String :=
  dedupFirstAux [] l

/-! ## BatchService (`src/services/batchService.ts`) -/

/-- `BatchService.createBatchRequest`. -/
def createBatchRequest (urls : List String) : BatchRequest :=
  { requests := urls.enum.map fun p =>
      { id := toString (p.1 + 1), method := "GET", url := p.2 } }

/-- `BatchService.executeBatch`: the underlying retried POST to `/$batch`
is modelled by its outcome `post`; on rejection the service swallows the
error and returns `{ responses: [] }`. -/
def executeBatch (post : Except String BatchResponse) : BatchResponse :=
  match post with
  | .ok r => r
  | .error _ => { responses := [] }

/-! ## MfaService (`src/services/mfaService.ts`) -/

/-- The batch request `MfaService.getUserMfaInfo` builds for a user. -/
def mfaBatchRequest (userId : String) : BatchRequest :=
  createBatchRequest
    ["/users/" ++ userId ++ "/authentication/methods",
     "/users/" ++ userId ++ "/authentication/signInPreferences"]

/-- Accumulator state of the `mfaMethods.forEach` loop in
`getUserMfaInfo`: the eight method flags plus the running `mfaStatus`. -/
structure MethodScanState where
  emailAuth : Bool
  fido2Auth : Bool
  msAuthenticatorApp : Bool
  msAuthenticatorLite : Bool
  phoneAuth : Bool
  softwareOath : Bool
  temporaryAccessPass : Bool
  windowsHello : Bool
  mfaStatus : String
deriving Repr, DecidableEq

/-- Initial accumulator: all flags false, status `"Disabled"`. -/
def initScanState : MethodScanState :=
  { emailAuth := false, fido2Auth := false, msAuthenticatorApp := false,
    msAuthenticatorLite := false, phoneAuth := false, softwareOath := false,
    temporaryAccessPass := false, windowsHello := false, mfaStatus := "Disabled" }

/-- One iteration of the `forEach` over `mfaMethods` in `getUserMfaInfo`:
the `if`/`else if` chain on `method['@odata.type']`. -/
def applyMethod (st : MethodScanState) (m : AuthMethod) : MethodScanState :=
  if m.odataType == "#microsoft.graph.emailAuthenticationMethod" then
    { st with emailAuth := true, mfaStatus := "Enabled" }
  else if m.odataType == "#microsoft.graph.fido2AuthenticationMethod" then
    { st with fido2Auth := true, mfaStatus := "Enabled" }
  else if m.odataType == "#microsoft.graph.microsoftAuthenticatorAuthenticationMethod" then
    if m.deviceTag == some "SoftwareTokenActivated" then
      { st with msAuthenticatorApp := true, mfaStatus := "Enabled" }
    else
      { st with msAuthenticatorLite := true, mfaStatus := "Enabled" }
  else if m.odataType == "#microsoft.graph.phoneAuthenticationMethod" then
    { st with phoneAuth := true, mfaStatus := "Enabled" }
  else if m.odataType == "#microsoft.graph.softwareOathAuthenticationMethod" then
    { st with softwareOath := true, mfaStatus := "Enabled" }
  else if m.odataType == "#microsoft.graph.temporaryAccessPassAuthenticationMethod" then
    { st with temporaryAccessPass := true, mfaStatus := "Enabled" }
  else if m.odataType == "#microsoft.graph.windowsHelloForBusinessAuthenticationMethod" then
    { st with windowsHello := true, mfaStatus := "Enabled" }
  else
    st

/-- `MfaService.getUserMfaInfo`.  The awaited `executeBatch` call is
modelled by the function `exec` giving the outcome of executing a batch
request; a `.error` outcome is the promise rejection caught by the
`try`/`catch`, which returns the sentinel `MfaInfo`.  The function is
total: it never raises to its caller. -/
def getUserMfaInfo (userId : String)
    (exec : BatchRequest → Except String BatchResponse) : MfaInfo :=
  match exec (mfaBatchRequest userId) with
  | .error _ =>
    { defaultMethod := "Error", mfaStatus := "Unknown",
      emailAuth := false, fido2Auth := false, msAuthenticatorApp := false,
      msAuthenticatorLite := false, phoneAuth := false, softwareOath := false,
      temporaryAccessPass := false, windowsHello := false }
  | .ok response =>
    let mfaMethods : List AuthMethod :=
      match response.responses[0]? with
      | some r => if r.status == 200 then r.body.value else []
      | none => []
    let mfaPreference : Option String :=
      match response.responses[1]? with
      | some r =>
        if r.status == 200 then r.body.userPreferredMethodForSecondaryAuthentication
        else none
      | none => none
    let st := mfaMethods.foldl applyMethod initScanState
    let defaultMethod :=
      match mfaPreference with
      | some p => if p == "" then "Not set" else p
      | none => "Not set"
    { defaultMethod := defaultMethod, mfaStatus := st.mfaStatus,
      emailAuth := st.emailAuth, fido2Auth := st.fido2Auth,
      msAuthenticatorApp := st.msAuthenticatorApp,
      msAuthenticatorLite := st.msAuthenticatorLite,
      phoneAuth := st.phoneAuth, softwareOath := st.softwareOath,
      temporaryAccessPass := st.temporaryAccessPass,
      windowsHello := st.windowsHello }

/-! ## GroupService (`src/services/groupService.ts`) -/

/-- The filter predicate of `getUserSecurityGroups`: directory type is
`"#microsoft.graph.group"` and the security-enabled flag holds. -/
def isEligibleGroup (g : DirectoryMember) : Bool :=
  g.odataType == "#microsoft.graph.group" && g.securityEnabled

/-- `GroupService.getUserSecurityGroups`.  The retried `memberOf` GET is
modelled by its outcome; a rejection is caught and yields the empty
result.  The function is total: it never raises to its caller. -/
def getUserSecurityGroups (outcome : Except String MemberOfResponse) :
    SecurityGroupInfo :=
  match outcome with
  | .error _ => { groups := [], count := 0 }
  | .ok response =>
    let securityGroups := response.value.filter isEligibleGroup
    { groups := sortStrings (securityGroups.map (·.displayName)),
      count := securityGroups.length }

/-! ## LicenseService (`src/services/licenseService.ts`) -/

/-- The `licenseSkuMap` cache as an association list; `mapGet` is the JS
`Map.prototype.get`. -/
def mapGet (m : List (String × LicenseSku)) (k : String) : Option LicenseSku :=
  (m.find? fun p => p.1 == k).map fun p => p.2

/-- Body of the `assignedLicenses.forEach` loop of `getUserLicenseDetails`:
pushes a display name (or the raw SKU id for an unknown SKU) and appends
the enabled, provisioned service-plan names. -/
def licenseStep (skuMap : List (String × LicenseSku))
    (acc : List String × List String) (license : AssignedLicense) :
    List String × List String :=
  match mapGet skuMap license.skuId with
  | some skuInfo =>
    let disabledPlans := license.disabledPlans.getD []
    let enabled :=
      (skuInfo.servicePlans.filter fun plan =>
        !(disabledPlans.contains plan.servicePlanId) &&
          plan.provisioningStatus == "Success").map
        fun plan => plan.servicePlanName
    (acc.1 ++ [skuInfo.displayName], acc.2 ++ enabled)
  | none => (acc.1 ++ [license.skuId], acc.2)

/-- `LicenseService.getUserLicenseDetails`: pure, reads only the pre-built
SKU cache. -/
def getUserLicenseDetails (skuMap : List (String × LicenseSku))
    (assignedLicenses : Option (List AssignedLicense)) : LicenseDetails :=
  match assignedLicenses with
  | none => { licenseSkus := [], licenseCount := 0, servicePlans := [] }
  | some licenses =>
    if licenses.isEmpty then
      { licenseSkus := [], licenseCount := 0, servicePlans := [] }
    else
      let r := licenses.foldl (licenseStep skuMap) ([], [])
      { licenseSkus := sortStrings (dedupFirst r.1),
        licenseCount := licenses.length,
        servicePlans := sortStrings (dedupFirst r.2) }

/-! ## UserProcessor (`src/services/userProcessor.ts`) -/

/-- `ProcessedUserRecord` from `types/index.ts`; Lean field names stand for
the quoted CSV column names of the source in declaration order
(`firstName` = `'First name'`, `lastSuccessfulSignIn` =
`'Last successful sign in'`, and so on). -/
structure ProcessedUserRecord where
  id : String
  firstName : Option String
  lastName : Option String
  displayName : Option String
  userPrincipalName : Option String
  domainName : Option String
  emailAddress : Option String
  jobTitle : Option String
  managerDisplayName : Option String
  managerUserPrincipalName : Option String
  department : Option String
  company : Option String
  office : Option String
  employeeId : Option String
  mobile : Option String
  phone : Option String
  street : Option String
  city : Option String
  postalCode : Option String
  state : Option String
  country : Option String
  userType : Option String
  onPremisesSync : String
  accountStatus : String
  accountCreatedOn : Option String
  lastSuccessfulSignIn : String
  licensed : String
  defaultMFAMethod : String
  mfaStatus : String
  emailAuthentication : Bool
  fido2Authentication : Bool
  msAuthenticatorApp : Bool
  msAuthenticatorLite : Bool
  phoneAuthentication : Bool
  softwareOath : Bool
  temporaryAccessPass : Bool
  windowsHello : Bool
  securityGroups : String
  securityGroupCount : Nat
  licenseSkus : String
  licenseCount : Nat
  enabledServicePlans : String
deriving Repr, DecidableEq

/-- The domain derivation of `processUser`:
`user.userPrincipalName?.includes('@') ? user.userPrincipalName.split('@')[1] : null`. -/
def domainOfUpn (upn : Option String) : Option String :=
  match upn with
  | none => none
  | some s => if strIncludes s "@" then (splitAtSign s)[1]? else none

/-- JavaScript `x || null` on an optional string: the empty string is falsy
and collapses to `null`. -/
def orNull (x : Option String) : Option String :=
  match x with
  | some s => if s == "" then none else some s
  | none => none

/-- The `lastSignIn` ternary chain of `processUser`, with JavaScript
truthiness on the optional timestamp (absent or empty string is falsy). -/
def lastSignInString (hasPremium : Bool) (user : GraphUser) : String :=
  match user.signInActivity.bind SignInActivity.lastSuccessfulSignInDateTime with
  | some ts =>
    if hasPremium && ts != "" then ts
    else if hasPremium then "No sign in"
    else "No Microsoft Entra ID Premium license"
  | none =>
    if hasPremium then "No sign in"
    else "No Microsoft Entra ID Premium license"

/-- The per-user enrichment environment: the joint outcome of the awaited
`Promise.all` of the MFA lookup and the security-group lookup for a user.
A `.error` value is a rejection of that promise, caught by the
`try`/`catch` of `processUser`. -/
def LookupEnv : Type :=
  GraphUser → Except String (MfaInfo × SecurityGroupInfo)

/-- `UserProcessor.processUser`: builds the flat output record, or counts
an error and resolves to no record (`null`).  The shared stats record is
threaded explicitly; the function is total, so one user's failure can
never abort the run. -/
def processUser (skuMap : List (String × LicenseSku)) (lookup : LookupEnv)
    (hasPremium : Bool) (user : GraphUser) (stats : ProcessingStats) :
    Option ProcessedUserRecord × ProcessingStats :=
  match lookup user with
  | .error _ => (none, { stats with errors := stats.errors + 1 })
  | .ok result =>
    let mfaInfo := result.1
    let securityGroups := result.2
    let licenseDetails := getUserLicenseDetails skuMap user.assignedLicenses
    let domainName := domainOfUpn user.userPrincipalName
    let managerDisplayName := orNull (user.manager.bind Manager.displayName)
    let managerUserPrincipalName := orNull (user.manager.bind Manager.userPrincipalName)
    let lastSignIn := lastSignInString hasPremium user
    (some
      { id := user.id
        firstName := user.givenName
        lastName := user.surname
        displayName := user.displayName
        userPrincipalName := user.userPrincipalName
        domainName := domainName
        emailAddress := user.mail
        jobTitle := user.jobTitle
        managerDisplayName := managerDisplayName
        managerUserPrincipalName := managerUserPrincipalName
        department := user.department
        company := user.companyName
        office := user.officeLocation
        employeeId := user.employeeId
        mobile := user.mobilePhone
        phone := user.businessPhones.map (String.intercalate ",")
        street := user.streetAddress
        city := user.city
        postalCode := user.postalCode
        state := user.state
        country := user.country
        userType := user.userType
        onPremisesSync := if user.onPremisesSyncEnabled == some true then "enabled" else "disabled"
        accountStatus := if user.accountEnabled == some true then "enabled" else "disabled"
        accountCreatedOn := user.createdDateTime
        lastSuccessfulSignIn := lastSignIn
        licensed :=
          match user.assignedLicenses with
          | some ls => if ls.length > 0 then "Yes" else "No"
          | none => "No"
        defaultMFAMethod := mfaInfo.defaultMethod
        mfaStatus := mfaInfo.mfaStatus
        emailAuthentication := mfaInfo.emailAuth
        fido2Authentication := mfaInfo.fido2Auth
        msAuthenticatorApp := mfaInfo.msAuthenticatorApp
        msAuthenticatorLite := mfaInfo.msAuthenticatorLite
        phoneAuthentication := mfaInfo.phoneAuth
        softwareOath := mfaInfo.softwareOath
        temporaryAccessPass := mfaInfo.temporaryAccessPass
        windowsHello := mfaInfo.windowsHello
        securityGroups := String.intercalate "; " securityGroups.groups
        securityGroupCount := securityGroups.count
        licenseSkus := String.intercalate "; " licenseDetails.licenseSkus
        licenseCount := licenseDetails.licenseCount
        enabledServicePlans := String.intercalate "; " licenseDetails.servicePlans },
     { stats with processed := stats.processed + 1 })

/-- The record produced for one user, independent of the stats threading:
the `Option ProcessedUserRecord` a user's task resolves to. -/
def processUserRecord (skuMap : List (String × LicenseSku)) (lookup : LookupEnv)
    (hasPremium : Bool) (user : GraphUser) : Option ProcessedUserRecord :=
  (processUser skuMap lookup hasPremium user
    { totalUsers := 0, processed := 0, errors := 0 }).1

/-- The sequential composition of the per-user tasks of `processAllUsers`:
each task runs `processUser` and the shared counters are threaded
through.  (Counter increments commute, so the final stats are those of any
interleaving of the single-threaded cooperative tasks.) -/
def processUsersFold (skuMap : List (String × LicenseSku)) (lookup : LookupEnv)
    (hasPremium : Bool) :
    List GraphUser → ProcessingStats →
      List (Option ProcessedUserRecord) × ProcessingStats
  | [], stats => ([], stats)
  | u :: rest, stats =>
    let r := processUser skuMap lookup hasPremium u stats
    let rs := processUsersFold skuMap lookup hasPremium rest r.2
    (r.1 :: rs.1, rs.2)

/-- `UserProcessor.processAllUsers`: resets the stats, fans out one task
per user, awaits all of them, and filters out the `null` outcomes.
Returns the surviving records (in task-submission order) together with the
final stats. -/
def processAllUsers (skuMap : List (String × LicenseSku)) (lookup : LookupEnv)
    (hasPremium : Bool) (users : List GraphUser) :
    List ProcessedUserRecord × ProcessingStats :=
  let stats0 : ProcessingStats :=
    { totalUsers := users.length, processed := 0, errors := 0 }
  let r := processUsersFold skuMap lookup hasPremium users stats0
  (r.1.filterMap id, r.2)

/-- Whether a user's enrichment lookup is made to fail. -/
def lookupFails (lookup : LookupEnv) (u : GraphUser) : Bool :=
  match lookup u with
  | .error _ => true
  | .ok _ => false

/-! ## Completion-order model of the fan-out (`Promise.all` keyed by index)

`Promise.all(users.map((user) => limit(() => this.processUser(...))))`
stores each task's resolution value at the task's original array index,
whatever order the tasks complete in.  The model makes the completion
order explicit: tasks finish in the order given by a list of indices, each
completion writing its result into its own slot. -/

/-- The result the task at index `i` resolves to. -/
def taskResult (skuMap : List (String × LicenseSku)) (lookup : LookupEnv)
    (hasPremium : Bool) (users : List GraphUser) (i : Nat) :
    Option ProcessedUserRecord :=
  match users[i]? with
  | some u => processUserRecord skuMap lookup hasPremium u
  | none => none

/-- Write one task's result into its slot. -/
def writeSlot (f : Nat → Option ProcessedUserRecord) (i : Nat)
    (v : Option ProcessedUserRecord) : Nat → Option ProcessedUserRecord :=
  fun j => if j = i then v else f j

/-- Fill the slot array by completing tasks in the given order. -/
def collectByIndex (res : Nat → Option ProcessedUserRecord) :
    List Nat → (Nat → Option ProcessedUserRecord) →
      Nat → Option ProcessedUserRecord
  | [], acc => acc
  | i :: order, acc => collectByIndex res order (writeSlot acc i (res i))

/-- The array `processAllUsers` returns, reconstructed from the slots
after the tasks completed in the order `order`: read the slots back in
index order and filter out the `null` outcomes. -/
def fanOutResults (skuMap : List (String × LicenseSku)) (lookup : LookupEnv)
    (hasPremium : Bool) (users : List GraphUser) (order : List Nat) :
    List ProcessedUserRecord :=
  let slots :=
    collectByIndex (taskResult skuMap lookup hasPremium users) order fun _ => none
  ((List.range users.length).map slots).filterMap id

/-! ## Bounded-concurrency limiter model

Modelled from the spec: the concurrency gate of `processAllUsers` is the
`p-limit` package (a dependency, not part of this repository's sources),
instantiated once per run with `maxConcurrency` and wrapped around every
user task.  Per the spec it is a single shared semaphore-gated FIFO
admission queue over the whole user list: a queued task is admitted only
while fewer than `limit` tasks are running, admission takes the head of
the queue, and a running task's completion frees one slot. -/
structure LimiterState where
  running : Nat
  pending : List Nat
deriving Repr, DecidableEq

/-- Modelled from the spec: one transition of the limiter — admit the head
of the FIFO queue when a slot is free, or complete a running task. -/
inductive LimiterStep (limit : Nat) : LimiterState → LimiterState → Prop
  | acquire (s : LimiterState) (t : Nat) (rest : List Nat) :
      s.running < limit → s.pending = t :: rest →
      LimiterStep limit s { running := s.running + 1, pending := rest }
  | finish (s : LimiterState) :
      0 < s.running →
      LimiterStep limit s { running := s.running - 1, pending := s.pending }

/-- The limiter state at the start of the fan-out of `processAllUsers`:
nothing running, every user task queued in submission order in the one
shared queue. -/
def fanOutInit (users : List GraphUser) : LimiterState :=
  { running := 0, pending := List.range users.length }

/-- Reachability along limiter transitions. -/
inductive LimiterReachable (limit : Nat) (init : LimiterState) :
    LimiterState → Prop
  | refl : LimiterReachable limit init init
  | step {s t : LimiterState} : LimiterReachable limit init s →
      LimiterStep limit s t → LimiterReachable limit init t

/-! ## Helper lemmas about the string order and the sort -/

theorem charListLt_asymm : ∀ x y : List Char,
    charListLt x y = true → charListLt y x = false
  | [], [] => by simp [charListLt]
  | [], _ :: _ => by simp [charListLt]
  | _ :: _, [] => by simp [charListLt]
  | a :: as, b :: bs => by
    simp only [charListLt]
    intro h
    by_cases hab : a.toNat < b.toNat
    · have hba : ¬ b.toNat < a.toNat := by omega
      simp [hab, hba]
    · by_cases hba : b.toNat < a.toNat
      · simp [hab, hba] at h
      · simp only [hab, hba, if_false] at h ⊢
        exact charListLt_asymm as bs h

theorem charListLt_not_trans : ∀ x y z : List Char,
    charListLt x y = false → charListLt y z = false → charListLt x z = false
  | x, _, [] => fun _ _ => by cases x <;> simp [charListLt]
  | x, [], _ :: _ => fun h1 h2 => by simp [charListLt] at h2
  | [], _ :: _, _ :: _ => fun h1 _ => by simp [charListLt] at h1
  | a :: as, b :: bs, c :: cs => by
    simp only [charListLt]
    intro h1 h2
    by_cases hab : a.toNat < b.toNat
    · simp [hab] at h1
    · by_cases hbc : b.toNat < c.toNat
      · simp [hbc] at h2
      · by_cases hba : b.toNat < a.toNat
        · have hac : ¬ a.toNat < c.toNat := by omega
          have hca : c.toNat < a.toNat := by omega
          simp [hac, hca]
        · by_cases hcb : c.toNat < b.toNat
          · have hac : ¬ a.toNat < c.toNat := by omega
            have hca : c.toNat < a.toNat := by omega
            simp [hac, hca]
          · have hac : ¬ a.toNat < c.toNat := by omega
            have hca : ¬ c.toNat < a.toNat := by omega
            simp only [hab, hba, if_false] at h1
            simp only [hbc, hcb, if_false] at h2
            simp only [hac, hca, if_false]
            exact charListLt_not_trans as bs cs h1 h2

theorem strLeB_total (a b : String) : strLeB a b = true ∨ strLeB b a = true := by
  by_cases h : charListLt b.data a.data = true
  · right
    simp [strLeB, charListLt_asymm _ _ h]
  · left
    simp [strLeB, Bool.eq_false_iff.mpr] at h ⊢
    simp [h]

theorem strLeB_trans {a b c : String} :
    strLeB a b = true → strLeB b c = true → strLeB a c = true := by
  simp only [strLeB, Bool.not_eq_true']
  intro h1 h2
  exact charListLt_not_trans c.data b.data a.data h2 h1

theorem insertSorted_perm (a : String) :
    ∀ l : List String, List.Perm (insertSorted a l) (a :: l)
  | [] => List.Perm.refl _
  | b :: l => by
    simp only [insertSorted]
    by_cases h : strLeB a b = true
    · simp [h]
    · simp only [h, if_false]
      exact ((insertSorted_perm a l).cons b).trans (List.Perm.swap a b l)

theorem sortStrings_perm : ∀ l : List String, List.Perm (sortStrings l) l
  | [] => List.Perm.refl _
  | a :: l =>
    (insertSorted_perm a (sortStrings l)).trans ((sortStrings_perm l).cons a)

theorem sorted_insertSorted (a : String) : ∀ {l : List String},
    List.Pairwise (fun x y => strLeB x y = true) l →
    List.Pairwise (fun x y => strLeB x y = true) (insertSorted a l)
  | [], _ => by simp [insertSorted]
  | b :: l, h => by
    rcases List.pairwise_cons.mp h with ⟨hb, hl⟩
    simp only [insertSorted]
    by_cases hab : strLeB a b = true
    · simp only [hab, if_true]
      refine List.pairwise_cons.mpr ⟨?_, h⟩
      intro x hx
      rcases List.mem_cons.mp hx with rfl | hx
      · exact hab
      · exact strLeB_trans hab (hb x hx)
    · simp only [hab, if_false]
      refine List.pairwise_cons.mpr ⟨?_, sorted_insertSorted a hl⟩
      intro x hx
      have hx' := (insertSorted_perm a l).mem_iff.mp hx
      rcases List.mem_cons.mp hx' with rfl | hx'
      · rcases strLeB_total b x with h' | h'
        · exact h'
        · exact absurd h' hab
      · exact hb x hx'

theorem sortStrings_sorted : ∀ l : List String,
    List.Pairwise (fun x y => strLeB x y = true) (sortStrings l)
  | [] => List.Pairwise.nil
  | a :: l => sorted_insertSorted a (sortStrings_sorted l)

theorem sortStrings_length (l : List String) :
    (sortStrings l).length = l.length :=
  (sortStrings_perm l).length_eq

/-! ## Helper lemmas about the pipeline -/

theorem processUser_fst (skuMap : List (String × LicenseSku)) (lookup : LookupEnv)
    (hasPremium : Bool) (u : GraphUser) (stats : ProcessingStats) :
    (processUser skuMap lookup hasPremium u stats).1 =
      processUserRecord skuMap lookup hasPremium u := by
  cases h : lookup u <;> simp [processUser, processUserRecord, h]

theorem processUser_snd (skuMap : List (String × LicenseSku)) (lookup : LookupEnv)
    (hasPremium : Bool) (u : GraphUser) (stats : ProcessingStats) :
    (processUser skuMap lookup hasPremium u stats).2 =
      if lookupFails lookup u then { stats with errors := stats.errors + 1 }
      else { stats with processed := stats.processed + 1 } := by
  cases h : lookup u <;> simp [processUser, lookupFails, h]

theorem processUsersFold_fst (skuMap : List (String × LicenseSku)) (lookup : LookupEnv)
    (hasPremium : Bool) : ∀ (users : List GraphUser) (stats : ProcessingStats),
    (processUsersFold skuMap lookup hasPremium users stats).1 =
      users.map (processUserRecord skuMap lookup hasPremium)
  | [], _ => rfl
  | u :: rest, stats => by
    simp only [processUsersFold, List.map_cons]
    rw [processUser_fst, processUsersFold_fst skuMap lookup hasPremium rest]

theorem processUsersFold_stats (skuMap : List (String × LicenseSku)) (lookup : LookupEnv)
    (hasPremium : Bool) : ∀ (users : List GraphUser) (stats : ProcessingStats),
    (processUsersFold skuMap lookup hasPremium users stats).2 =
      { totalUsers := stats.totalUsers,
        processed :=
          stats.processed + (users.filter fun u => !(lookupFails lookup u)).length,
        errors := stats.errors + (users.filter (lookupFails lookup)).length }
  | [], stats => by simp [processUsersFold]
  | u :: rest, stats => by
    simp only [processUsersFold]
    rw [processUsersFold_stats skuMap lookup hasPremium rest, processUser_snd]
    by_cases h : lookupFails lookup u
    · simp only [h, if_true, List.filter_cons, Bool.not_true]
      simp [ProcessingStats.mk.injEq]
      omega
    · simp only [h, if_false, List.filter_cons, Bool.not_false]
      simp [h, ProcessingStats.mk.injEq]
      omega

theorem processUserRecord_isSome (skuMap : List (String × LicenseSku))
    (lookup : LookupEnv) (hasPremium : Bool) (u : GraphUser) :
    (processUserRecord skuMap lookup hasPremium u).isSome = !(lookupFails lookup u) := by
  cases h : lookup u <;> simp [processUserRecord, processUser, lookupFails, h]

theorem filterMap_length_eq_count {α β : Type} (f : α → Option β) (p : α → Bool)
    (hp : ∀ a, (f a).isSome = p a) :
    ∀ l : List α, (l.filterMap f).length = (l.filter p).length
  | [] => rfl
  | a :: l => by
    have hpa := hp a
    rw [List.filterMap_cons, List.filter_cons]
    cases hfa : f a
    · rw [hfa] at hpa
      simp only [Option.isSome_none] at hpa
      simp [← hpa, filterMap_length_eq_count f p hp l]
    · rw [hfa] at hpa
      simp only [Option.isSome_some] at hpa
      simp [← hpa, filterMap_length_eq_count f p hp l]

theorem length_filter_not_add {α : Type} (p : α → Bool) :
    ∀ l : List α,
      (l.filter fun a => !(p a)).length + (l.filter p).length = l.length
  | [] => rfl
  | a :: l => by
    rw [List.filter_cons, List.filter_cons]
    cases h : p a <;> simp [h, ← length_filter_not_add p l] <;> omega

theorem processAllUsers_fst (skuMap : List (String × LicenseSku)) (lookup : LookupEnv)
    (hasPremium : Bool) (users : List GraphUser) :
    (processAllUsers skuMap lookup hasPremium users).1 =
      users.filterMap (processUserRecord skuMap lookup hasPremium) := by
  simp only [processAllUsers, processUsersFold_fst]
  rw [List.filterMap_map]
  rfl

theorem processAllUsers_stats (skuMap : List (String × LicenseSku)) (lookup : LookupEnv)
    (hasPremium : Bool) (users : List GraphUser) :
    (processAllUsers skuMap lookup hasPremium users).2 =
      { totalUsers := users.length,
        processed := (users.filter fun u => !(lookupFails lookup u)).length,
        errors := (users.filter (lookupFails lookup)).length } := by
  simp only [processAllUsers]
  rw [processUsersFold_stats]
  simp

theorem collectByIndex_eval (res : Nat → Option ProcessedUserRecord) :
    ∀ (order : List Nat) (acc : Nat → Option ProcessedUserRecord) (j : Nat),
      collectByIndex res order acc j = if j ∈ order then res j else acc j
  | [], acc, j => by simp [collectByIndex]
  | i :: order, acc, j => by
    simp only [collectByIndex]
    rw [collectByIndex_eval res order]
    by_cases hr : j ∈ order
    · simp [hr, List.mem_cons]
    · by_cases hi : j = i
      · subst hi
        simp [hr, writeSlot]
      · simp [hr, hi, writeSlot, List.mem_cons]

theorem range_map_get_bind_filterMap {α β : Type} (f : α → Option β) :
    ∀ l : List α,
      ((List.range l.length).map fun i => (l[i]?).bind f).filterMap id =
        l.filterMap f
  | [] => by simp
  | a :: l => by
    rw [List.length_cons, List.range_succ_eq_map, List.map_cons, List.map_map]
    have hcomp :
        ((fun i => ((a :: l)[i]?).bind f) ∘ Nat.succ) = fun i => (l[i]?).bind f := by
      funext i
      simp
    rw [hcomp]
    simp only [List.getElem?_cons_zero, Option.some_bind, List.filterMap_cons]
    cases hfa : f a <;>
      simp [hfa, range_map_get_bind_filterMap f l]

/-- The display name an assignment contributes to the license list. -/
def assignedName (skuMap : List (String × LicenseSku)) (l : AssignedLicense) : String :=
  match mapGet skuMap l.skuId with
  | some s => s.displayName
  | none => l.skuId

/-- The enabled, successfully provisioned service-plan names an assignment
contributes. -/
def assignedPlans (skuMap : List (String × LicenseSku)) (l : AssignedLicense) :
    List String :=
  match mapGet skuMap l.skuId with
  | some s =>
    (s.servicePlans.filter fun plan =>
      !((l.disabledPlans.getD []).contains plan.servicePlanId) &&
        plan.provisioningStatus == "Success").map
      fun plan => plan.servicePlanName
  | none => []

theorem licenseFold_spec (skuMap : List (String × LicenseSku)) :
    ∀ (licenses : List AssignedLicense) (acc : List String × List String),
      licenses.foldl (licenseStep skuMap) acc =
        (acc.1 ++ licenses.map (assignedName skuMap),
         acc.2 ++ licenses.flatMap (assignedPlans skuMap))
  | [], acc => by simp
  | l :: ls, acc => by
    rw [List.foldl_cons, licenseFold_spec skuMap ls]
    cases h : mapGet skuMap l.skuId <;>
      simp [licenseStep, assignedName, assignedPlans, h, List.append_assoc]

/-! ## Helper lemmas about splitting on the at sign -/

theorem splitChar_ne_nil (c : Char) : ∀ l : List Char, splitChar c l ≠ []
  | [] => by simp [splitChar]
  | x :: xs => by
    simp only [splitChar]
    by_cases h : x == c
    · simp [h]
    · simp only [h, if_false]
      cases hr : splitChar c xs <;> simp

theorem splitChar_length (c : Char) :
    ∀ l : List Char, (splitChar c l).length = l.count c + 1
  | [] => by simp [splitChar, List.count_nil]
  | x :: xs => by
    simp only [splitChar, List.count_cons]
    cases hxc : x == c
    · simp only [hxc, Bool.false_eq_true, if_false]
      cases hr : splitChar c xs with
      | nil => exact absurd hr (splitChar_ne_nil c xs)
      | cons y ys =>
        have hlen := splitChar_length c xs
        rw [hr] at hlen
        simp only [List.length_cons] at hlen ⊢
        omega
    · simp [hxc, splitChar_length c xs]

theorem containsL_single_iff_count (c : Char) :
    ∀ l : List Char, containsL [c] l = true ↔ 0 < l.count c
  | [] => by simp [containsL, startsWithL]
  | x :: xs => by
    simp only [containsL, startsWithL, Bool.and_true, Bool.or_eq_true,
      List.count_cons, containsL_single_iff_count c xs]
    cases hxc : x == c
    · have hx : x ≠ c := by
        intro h
        subst h
        simp at hxc
      have hcx : (c == x) = false := by
        cases hcx2 : c == x
        · rfl
        · exact absurd (beq_iff_eq.mp hcx2).symm hx
      simp [hcx, hxc]
    · have hx : x = c := beq_iff_eq.mp hxc
      subst hx
      simp

theorem strIncludes_at_iff (s : String) :
    strIncludes s "@" = true ↔ 1 < (splitAtSign s).length := by
  have hdata : ("@" : String).data = ['@'] := rfl
  rw [strIncludes, hdata, containsL_single_iff_count]
  rw [splitAtSign, List.length_map, splitChar_length]
  omega

/-! ## Concrete fixtures used by the witness theorems -/

/-- A user with the given id and every optional field absent. -/
def baseUser (uid : String) : GraphUser :=
  { id := uid, givenName := none, surname := none, displayName := none,
    userPrincipalName := none, mail := none, jobTitle := none,
    department := none, companyName := none, officeLocation := none,
    employeeId := none, mobilePhone := none, businessPhones := none,
    streetAddress := none, city := none, postalCode := none, state := none,
    country := none, userType := none, onPremisesSyncEnabled := none,
    accountEnabled := none, createdDateTime := none, assignedLicenses := none,
    signInActivity := none, manager := none }

/-- An MFA result with no method registered. -/
def demoMfaInfo : MfaInfo :=
  { defaultMethod := "Not set", mfaStatus := "Disabled", emailAuth := false,
    fido2Auth := false, msAuthenticatorApp := false, msAuthenticatorLite := false,
    phoneAuth := false, softwareOath := false, temporaryAccessPass := false,
    windowsHello := false }

/-- An enrichment environment in which every user's lookups succeed. -/
def lookupOkStub : LookupEnv :=
  fun _ => .ok (demoMfaInfo, { groups := [], count := 0 })

/-- Two concrete users. -/
def demoUsers : List GraphUser :=
  [baseUser "u0", baseUser "u1"]

/-- Three concrete users. -/
def demoUsers3 : List GraphUser :=
  [baseUser "a", baseUser "b", baseUser "c"]

/-- The membership response of the group-lookup test scenario: one
security-enabled group, one non-security-enabled group, one
security-enabled administrative unit. -/
def demoMembers : MemberOfResponse :=
  { value :=
      [{ odataType := "#microsoft.graph.group", securityEnabled := true,
         displayName := "Eligible Group" },
       { odataType := "#microsoft.graph.group", securityEnabled := false,
         displayName := "Distribution Group" },
       { odataType := "#microsoft.graph.administrativeUnit", securityEnabled := true,
         displayName := "Admin Unit" }] }

/-- An operation that fails with HTTP 429 on its first two attempts and
succeeds on the third. -/
def retryDemoOp : Nat → Except ErrorWithStatus Nat := fun i =>
  if i == 0 then .error { statusCode := some 429, message := "Too Many Requests" }
  else if i == 1 then .error { statusCode := some 429, message := "throttled" }
  else .ok 42

/-- A user whose sign-in activity carries an empty-string timestamp. -/
def emptyTsUser : GraphUser :=
  { baseUser "signin-user" with
    signInActivity := some { lastSuccessfulSignInDateTime := some "" } }

/-- A user with a real last-successful-sign-in timestamp. -/
def premiumUser : GraphUser :=
  { baseUser "premium-user" with
    signInActivity := some { lastSuccessfulSignInDateTime := some "2025-01-01T00:00:00Z" } }

/-! ## Claim theorems -/

/-- C1: for every userId, if the batched MFA request fails entirely (the
`executeBatch` call awaited by `getUserMfaInfo` raises), `getUserMfaInfo`
returns the sentinel `MfaInfo` with `mfaStatus = "Unknown"`,
`defaultMethod = "Error"` and all eight method flags false.  It never
raises to its caller: the embedding is a total function. -/
theorem getUserMfaInfo_total_failure (userId : String)
    (exec : BatchRequest → Except String BatchResponse) (e : String)
    (h : exec (mfaBatchRequest userId) = .error e) :
    getUserMfaInfo userId exec =
      { defaultMethod := "Error", mfaStatus := "Unknown",
        emailAuth := false, fido2Auth := false, msAuthenticatorApp := false,
        msAuthenticatorLite := false, phoneAuth := false, softwareOath := false,
        temporaryAccessPass := false, windowsHello := false } := by
  simp [getUserMfaInfo, h]

/-- Witness for C1: a batch execution rejecting with "API Error" yields
the sentinel. -/
theorem getUserMfaInfo_total_failure_witness :
    getUserMfaInfo "123" (fun _ => .error "API Error") =
      { defaultMethod := "Error", mfaStatus := "Unknown",
        emailAuth := false, fido2Auth := false, msAuthenticatorApp := false,
        msAuthenticatorLite := false, phoneAuth := false, softwareOath := false,
        temporaryAccessPass := false, windowsHello := false } :=
  getUserMfaInfo_total_failure "123" (fun _ => .error "API Error") "API Error" rfl

/-- C7: `getUserLicenseDetails` reports a `licenseCount` equal to the raw
length of the assignment list; its `licenseSkus` are the deduplicated
sorted display names where an unknown SKU contributes its raw id; its
`servicePlans` are the deduplicated sorted union over assignments of the
plan names that are not disabled in that assignment and whose provisioning
status is "Success"; and on the single unknown assignment `"X"` the
result is exactly `(["X"], 1, [])`. -/
theorem getUserLicenseDetails_spec (skuMap : List (String × LicenseSku))
    (licenses : List AssignedLicense) :
    (getUserLicenseDetails skuMap (some licenses)).licenseCount = licenses.length ∧
    (getUserLicenseDetails skuMap (some licenses)).licenseSkus =
      sortStrings (dedupFirst (licenses.map (assignedName skuMap))) ∧
    (getUserLicenseDetails skuMap (some licenses)).servicePlans =
      sortStrings (dedupFirst (licenses.flatMap (assignedPlans skuMap))) ∧
    (mapGet skuMap "X" = none →
      getUserLicenseDetails skuMap (some [{ skuId := "X", disabledPlans := none }]) =
        { licenseSkus := ["X"], licenseCount := 1, servicePlans := [] }) := by
  refine ⟨?_, ?_, ?_, ?_⟩
  · cases licenses <;> simp [getUserLicenseDetails]
  · cases licenses with
    | nil => simp [getUserLicenseDetails, dedupFirst, dedupFirstAux, sortStrings]
    | cons l ls =>
      simp only [getUserLicenseDetails, List.isEmpty_cons, if_false]
      rw [licenseFold_spec]
      simp
  · cases licenses with
    | nil => simp [getUserLicenseDetails, dedupFirst, dedupFirstAux, sortStrings]
    | cons l ls =>
      simp only [getUserLicenseDetails, List.isEmpty_cons, if_false]
      rw [licenseFold_spec]
      simp
  · intro h
    simp [getUserLicenseDetails, licenseStep, h, dedupFirst, dedupFirstAux,
      sortStrings, insertSorted]

/-- Witness for C7: the unknown-SKU scenario evaluated on the empty
catalog. -/
theorem getUserLicenseDetails_spec_witness :
    getUserLicenseDetails [] (some [{ skuId := "X", disabledPlans := none }]) =
      { licenseSkus := ["X"], licenseCount := 1, servicePlans := [] } :=
  (getUserLicenseDetails_spec [] [{ skuId := "X", disabledPlans := none }]).2.2.2 rfl

/-- C8: `getUserSecurityGroups` keeps exactly the members whose directory
type is `"#microsoft.graph.group"` and whose security-enabled flag is set
(their display names, as a permutation of the filtered list), sorted
ascending; its count is the number of those members; and on any failure of
the underlying call it returns the empty result (and, being total, never
raises). -/
theorem getUserSecurityGroups_spec (outcome : Except String MemberOfResponse) :
    (∀ e, outcome = .error e →
      getUserSecurityGroups outcome = { groups := [], count := 0 }) ∧
    (∀ resp, outcome = .ok resp →
      List.Perm (getUserSecurityGroups outcome).groups
        ((resp.value.filter isEligibleGroup).map DirectoryMember.displayName) ∧
      List.Pairwise (fun x y => strLeB x y = true)
        (getUserSecurityGroups outcome).groups ∧
      (getUserSecurityGroups outcome).count =
        (resp.value.filter isEligibleGroup).length) := by
  constructor
  · intro e he
    subst he
    rfl
  · intro resp hr
    subst hr
    refine ⟨?_, ?_, rfl⟩
    · exact sortStrings_perm _
    · exact sortStrings_sorted _

/-- Witness for C8: the scenario response (one eligible group, one
non-security group, one administrative unit) keeps exactly the eligible
group. -/
theorem getUserSecurityGroups_spec_witness :
    List.Perm (getUserSecurityGroups (.ok demoMembers)).groups
      ((demoMembers.value.filter isEligibleGroup).map DirectoryMember.displayName) ∧
    List.Pairwise (fun x y => strLeB x y = true)
      (getUserSecurityGroups (.ok demoMembers)).groups ∧
    (getUserSecurityGroups (.ok demoMembers)).count =
      (demoMembers.value.filter isEligibleGroup).length :=
  (getUserSecurityGroups_spec (.ok demoMembers)).2 demoMembers rfl

/-- C10: for every outcome of the underlying call, including the failure
path, the `SecurityGroupInfo` returned by `getUserSecurityGroups`
satisfies `count = groups.length`. -/
theorem securityGroupCount_consistent (outcome : Except String MemberOfResponse) :
    (getUserSecurityGroups outcome).count =
      (getUserSecurityGroups outcome).groups.length := by
  cases outcome with
  | error e => rfl
  | ok resp => simp [getUserSecurityGroups, sortStrings_length]

/-- C2: with `k` the number of users whose enrichment lookup fails,
`processAllUsers` returns exactly `M − k` records, its final stats have
`errors = k` and `processed = M − k` (each failure counted exactly once),
and the output is the per-user `filterMap` of the input list — every
record is a function of its own user and that user's own lookup outcome
alone, so no user's failure alters another user's record, and the total
function never raises. -/
theorem processAllUsers_failure_isolation (skuMap : List (String × LicenseSku))
    (lookup : LookupEnv) (hasPremium : Bool) (users : List GraphUser) :
    (processAllUsers skuMap lookup hasPremium users).1 =
      users.filterMap (processUserRecord skuMap lookup hasPremium) ∧
    (processAllUsers skuMap lookup hasPremium users).1.length =
      users.length - (users.filter (lookupFails lookup)).length ∧
    (processAllUsers skuMap lookup hasPremium users).2.errors =
      (users.filter (lookupFails lookup)).length ∧
    (processAllUsers skuMap lookup hasPremium users).2.processed =
      users.length - (users.filter (lookupFails lookup)).length ∧
    (processAllUsers skuMap lookup hasPremium users).2.totalUsers = users.length := by
  have hfst := processAllUsers_fst skuMap lookup hasPremium users
  have hst := processAllUsers_stats skuMap lookup hasPremium users
  have hlen := filterMap_length_eq_count _ _
    (processUserRecord_isSome skuMap lookup hasPremium) users
  have hsplit := length_filter_not_add (lookupFails lookup) users
  refine ⟨hfst, ?_, ?_, ?_, ?_⟩
  · rw [hfst, hlen]
    omega
  · rw [hst]
  · rw [hst]
    simp only
    omega
  · rw [hst]

/-- C3: for every completion order of the per-user tasks (any permutation
of the task indices), reading the results back from the index-keyed slots
yields exactly the `processAllUsers` output: the successful users'
records in input order, independent of completion order. -/
theorem processAllUsers_order_preservation (skuMap : List (String × LicenseSku))
    (lookup : LookupEnv) (hasPremium : Bool) (users : List GraphUser)
    (order : List Nat) (hperm : List.Perm order (List.range users.length)) :
    fanOutResults skuMap lookup hasPremium users order =
      (processAllUsers skuMap lookup hasPremium users).1 := by
  have hmem : ∀ j, j ∈ List.range users.length → j ∈ order := fun j hj =>
    hperm.mem_iff.mpr hj
  have hmap : (List.range users.length).map
      (collectByIndex (taskResult skuMap lookup hasPremium users) order fun _ => none) =
      (List.range users.length).map fun i =>
        (users[i]?).bind (processUserRecord skuMap lookup hasPremium) := by
    apply List.map_congr_left
    intro j hj
    rw [collectByIndex_eval]
    simp only [hmem j hj, if_true]
    cases h : users[j]? <;> simp [taskResult, h]
  rw [fanOutResults, hmap, range_map_get_bind_filterMap, processAllUsers_fst]

/-- Witness for C3: two users completing in reverse order still produce
the `processAllUsers` output. -/
theorem processAllUsers_order_preservation_witness :
    fanOutResults [] lookupOkStub true demoUsers [1, 0] =
      (processAllUsers [] lookupOkStub true demoUsers).1 :=
  processAllUsers_order_preservation [] lookupOkStub true demoUsers [1, 0] (by decide)

/-- C4: from the initial fan-out state of `processAllUsers` — the one
shared limiter queue holding every user task in submission order — every
state reachable by limiter transitions (FIFO admission gated on a free
slot, or completion of a running task) has at most `limit` tasks running
simultaneously. -/
theorem processAllUsers_concurrency_bound (users : List GraphUser) (limit : Nat)
    (_hlim : limit < users.length) (s : LimiterState)
    (hreach : LimiterReachable limit (fanOutInit users) s) :
    s.running ≤ limit := by
  induction hreach with
  | refl => simp [fanOutInit]
  | step _ hstep ih =>
    cases hstep with
    | acquire t rest hlt hp => exact hlt
    | finish hpos => exact le_trans (Nat.sub_le _ _) ih

/-- Witness for C4: three queued tasks, limit 1, after admitting the first
task the running count is within the bound. -/
theorem processAllUsers_concurrency_bound_witness :
    ({ running := 1, pending := [1, 2] } : LimiterState).running ≤ 1 :=
  processAllUsers_concurrency_bound demoUsers3 1 (by decide)
    { running := 1, pending := [1, 2] }
    (LimiterReachable.step LimiterReachable.refl
      (LimiterStep.acquire (fanOutInit demoUsers3) 0 [1, 2] (by decide) (by decide)))

/-- C5: the `retryWithBackoff` contract.  A non-throttling first failure
is re-raised immediately with exactly one invocation of the operation; a
throttling failure at attempt `i` with attempts remaining waits
`retryDelayMs * 2 ^ i` and runs one more attempt sequence; and with
`maxRetries = 3` and `retryDelayMs = 100`, an operation failing with HTTP
429 twice and then succeeding is invoked exactly 3 times, waits 100 ms and
200 ms, and its success value is returned. -/
theorem retryWithBackoff_contract {α : Type} (op : Nat → Except ErrorWithStatus α)
    (opts : RetryOptions) (e e0 e1 : ErrorWithStatus) (v : α)
    (i rem maxR delayMs : Nat) :
    (isThrottlingError e = false → op 0 = .error e → 1 ≤ opts.maxRetries →
      retryWithBackoff op opts =
        { result := .error e, attempts := 1, delays := [] }) ∧
    (isThrottlingError e = true → op i = .error e → i < maxR - 1 →
      retryAux op maxR delayMs i (rem + 1) =
        { result := (retryAux op maxR delayMs (i + 1) rem).result,
          attempts := (retryAux op maxR delayMs (i + 1) rem).attempts + 1,
          delays := delayMs * 2 ^ i :: (retryAux op maxR delayMs (i + 1) rem).delays }) ∧
    (opts.maxRetries = 3 → opts.retryDelayMs = 100 →
      op 0 = .error e0 → e0.statusCode = some 429 →
      op 1 = .error e1 → e1.statusCode = some 429 →
      op 2 = .ok v →
      retryWithBackoff op opts =
        { result := .ok v, attempts := 3, delays := [100, 200] }) := by
  refine ⟨?_, ?_, ?_⟩
  · intro hthr hop hmax
    obtain ⟨m, hm⟩ : ∃ m, opts.maxRetries = m + 1 :=
      ⟨opts.maxRetries - 1, by omega⟩
    show retryAux op opts.maxRetries opts.retryDelayMs 0 opts.maxRetries = _
    rw [hm]
    simp [retryAux, hop, hthr]
  · intro hthr hop hlt
    have hd : decide (i < maxR - 1) = true := decide_eq_true hlt
    simp [retryAux, hop, hthr, hd]
  · intro hM hD hop0 hs0 hop1 hs1 hop2
    have ht0 : isThrottlingError e0 = true := by
      simp [isThrottlingError, hs0]
    have ht1 : isThrottlingError e1 = true := by
      simp [isThrottlingError, hs1]
    show retryAux op opts.maxRetries opts.retryDelayMs 0 opts.maxRetries = _
    rw [hM, hD]
    simp [retryAux, hop0, hop1, hop2, ht0, ht1]

/-- Witness for C5: the two-429s-then-success operation with
`maxRetries = 3`, `retryDelayMs = 100`. -/
theorem retryWithBackoff_contract_witness :
    retryWithBackoff retryDemoOp { maxRetries := 3, retryDelayMs := 100 } =
      { result := .ok 42, attempts := 3, delays := [100, 200] } :=
  (retryWithBackoff_contract retryDemoOp { maxRetries := 3, retryDelayMs := 100 }
    { statusCode := some 429, message := "Too Many Requests" }
    { statusCode := some 429, message := "Too Many Requests" }
    { statusCode := some 429, message := "throttled" } 42 0 0 0 0).2.2
    rfl rfl rfl rfl rfl rfl rfl

/-- Counterexample for C6 as stated: `emptyTsUser` has a
last-successful-sign-in timestamp present (the empty string), yet with the
premium entitlement the sign-in field is the fixed "No sign in" string,
not that timestamp verbatim — JavaScript truthiness treats the empty
string as absent. -/
theorem lastSignIn_verbatim_counterexample :
    emptyTsUser.signInActivity.bind SignInActivity.lastSuccessfulSignInDateTime =
      some "" ∧
    lastSignInString true emptyTsUser = "No sign in" ∧
    ("No sign in" : String) ≠ "" := by
  refine ⟨rfl, by decide, by decide⟩

/-- C6 amended: without the premium entitlement the sign-in field is the
fixed premium-absent string regardless of any timestamp; with it and a
nonempty timestamp present the field is that timestamp verbatim; with it
and the timestamp absent or empty the field is the fixed no-sign-in
string; and the produced record carries exactly this value. -/
theorem lastSignIn_amended (hasPremium : Bool) (user : GraphUser)
    (skuMap : List (String × LicenseSku)) (lookup : LookupEnv)
    (mfa : MfaInfo) (sg : SecurityGroupInfo) :
    (hasPremium = false →
      lastSignInString hasPremium user = "No Microsoft Entra ID Premium license") ∧
    (∀ ts, user.signInActivity.bind SignInActivity.lastSuccessfulSignInDateTime =
        some ts → ts ≠ "" → lastSignInString true user = ts) ∧
    (user.signInActivity.bind SignInActivity.lastSuccessfulSignInDateTime = none ∨
        user.signInActivity.bind SignInActivity.lastSuccessfulSignInDateTime =
          some "" →
      lastSignInString true user = "No sign in") ∧
    (lookup user = .ok (mfa, sg) →
      ∃ r, processUserRecord skuMap lookup hasPremium user = some r ∧
        r.lastSuccessfulSignIn = lastSignInString hasPremium user) := by
  refine ⟨?_, ?_, ?_, ?_⟩
  · intro h
    subst h
    cases hb : user.signInActivity.bind SignInActivity.lastSuccessfulSignInDateTime <;>
      simp [lastSignInString, hb]
  · intro ts hb hne
    simp [lastSignInString, hb, hne]
  · rintro (hb | hb) <;> simp [lastSignInString, hb]
  · intro h
    unfold processUserRecord processUser
    rw [h]
    exact ⟨_, rfl, rfl⟩

/-- Witness for C6 (amended): with premium and a real timestamp the field
is the timestamp verbatim. -/
theorem lastSignIn_amended_witness :
    lastSignInString true premiumUser = "2025-01-01T00:00:00Z" :=
  (lastSignIn_amended true premiumUser [] lookupOkStub demoMfaInfo
    { groups := [], count := 0 }).2.1 "2025-01-01T00:00:00Z" rfl (by decide)

/-- Counterexample for C9 as stated: for the principal name
`"first@middle@last"` the code yields `"middle"` — the segment between the
first and second at sign — which is neither the whole substring after the
first at sign (`"middle@last"`) nor empty/absent. -/
theorem domainName_counterexample :
    domainOfUpn (some "first@middle@last") = some "middle" ∧
    some "middle" ≠ some "middle@last" ∧
    (some "middle" : Option String) ≠ none := by
  refine ⟨by decide, by decide, by decide⟩

/-- C9 amended: the domain-name field is the second element of splitting
the principal name on the at sign — the text between the first and second
at sign when more than one is present — and it is always present in that
case; when the principal name is absent or contains no at sign the field
is absent. -/
theorem domainName_amended (user : GraphUser) (skuMap : List (String × LicenseSku))
    (lookup : LookupEnv) (mfa : MfaInfo) (sg : SecurityGroupInfo)
    (hasPremium : Bool) :
    (user.userPrincipalName = none → domainOfUpn user.userPrincipalName = none) ∧
    (∀ s, user.userPrincipalName = some s → strIncludes s "@" = false →
      domainOfUpn user.userPrincipalName = none) ∧
    (∀ s, user.userPrincipalName = some s → strIncludes s "@" = true →
      domainOfUpn user.userPrincipalName = (splitAtSign s)[1]? ∧
      ∃ d, domainOfUpn user.userPrincipalName = some d) ∧
    (lookup user = .ok (mfa, sg) →
      ∃ r, processUserRecord skuMap lookup hasPremium user = some r ∧
        r.domainName = domainOfUpn user.userPrincipalName) := by
  refine ⟨?_, ?_, ?_, ?_⟩
  · intro h
    simp [domainOfUpn, h]
  · intro s hs h
    simp [domainOfUpn, hs, h]
  · intro s hs h
    have hlen : 1 < (splitAtSign s).length := (strIncludes_at_iff s).mp h
    refine ⟨by simp [domainOfUpn, hs, h], ?_⟩
    exact ⟨(splitAtSign s)[1], by simp [domainOfUpn, hs, h,
      List.getElem?_eq_getElem hlen]⟩
  · intro h
    unfold processUserRecord processUser
    rw [h]
    exact ⟨_, rfl, rfl⟩

/-- Witness for C9 (amended): a single-at principal name yields the part
after the at sign. -/
theorem domainName_amended_witness :
    domainOfUpn ({ baseUser "w" with userPrincipalName := some "john@example.com"
      } : GraphUser).userPrincipalName = (splitAtSign "john@example.com")[1]? ∧
    ∃ d, domainOfUpn ({ baseUser "w" with
      userPrincipalName := some "john@example.com" } : GraphUser).userPrincipalName =
        some d :=
  (domainName_amended { baseUser "w" with userPrincipalName := some "john@example.com" }
    [] lookupOkStub demoMfaInfo { groups := [], count := 0 } true).2.2.1
    "john@example.com" rfl (by decide)

end EntraNode
